import Mathlib

/-!
Verification of the immutable, hash-chained log store implemented in
`src/core/immutable-logger.py` (class `ImmutableLogger`).

The embedding is byte-level: serialized JSON text is modelled as `List Nat`
(the UTF-8 bytes / ASCII code points produced by Python's `json.dumps`, which
escapes everything outside printable ASCII when `ensure_ascii` is on, its
default), and the cryptographic digest is a full executable SHA-256 over those
bytes, mirroring `hashlib.sha256(data.encode()).hexdigest()`.

Nondeterministic environment reads in `create_entry` (`uuid.uuid4()`,
`datetime.utcnow()`, `os.uname().nodename`, `os.getpid()`) are modelled as
oracle fields supplied with each call.
-/

namespace ImmutableLogger

/-! ### SHA-256 (`hashlib.sha256(data).hexdigest()`), over byte lists -/

/-- 2^32, the word modulus. -/
def M32 : Nat := 4294967296

/-- Addition modulo 2^32. -/
def add32 (a b : Nat) : Nat := (a + b) % M32

/-- Right rotation of a 32-bit word by `n`. -/
def rotr (n x : Nat) : Nat := ((x >>> n) + ((x <<< (32 - n)) % M32)) % M32

/-- 32-bit bitwise complement. -/
def not32 (x : Nat) : Nat := x ^^^ (M32 - 1)

/-- SHA-256 `Ch` function. -/
def ch32 (x y z : Nat) : Nat := (x &&& y) ^^^ (not32 x &&& z)

/-- SHA-256 `Maj` function. -/
def maj32 (x y z : Nat) : Nat := (x &&& y) ^^^ (x &&& z) ^^^ (y &&& z)

/-- SHA-256 big sigma 0. -/
def bsig0 (x : Nat) : Nat := rotr 2 x ^^^ rotr 13 x ^^^ rotr 22 x

/-- SHA-256 big sigma 1. -/
def bsig1 (x : Nat) : Nat := rotr 6 x ^^^ rotr 11 x ^^^ rotr 25 x

/-- SHA-256 small sigma 0. -/
def ssig0 (x : Nat) : Nat := rotr 7 x ^^^ rotr 18 x ^^^ (x >>> 3)

/-- SHA-256 small sigma 1. -/
def ssig1 (x : Nat) : Nat := rotr 17 x ^^^ rotr 19 x ^^^ (x >>> 10)

/-- SHA-256 round constants (FIPS 180-4 table, in decimal). -/
def sha256K : List Nat :=
  [1116352408, 1899447441, 3049323471, 3921009573, 961987163,
   1508970993, 2453635748, 2870763221, 3624381080, 310598401,
   607225278, 1426881987, 1925078388, 2162078206, 2614888103,
   3248222580, 3835390401, 4022224774, 264347078, 604807628,
   770255983, 1249150122, 1555081692, 1996064986, 2554220882,
   2821834349, 2952996808, 3210313671, 3336571891, 3584528711,
   113926993, 338241895, 666307205, 773529912, 1294757372,
   1396182291, 1695183700, 1986661051, 2177026350, 2456956037,
   2730485921, 2820302411, 3259730800, 3345764771, 3516065817,
   3600352804, 4094571909, 275423344, 430227734, 506948616,
   659060556, 883997877, 958139571, 1322822218, 1537002063,
   1747873779, 1955562222, 2024104815, 2227730452, 2361852424,
   2428436474, 2756734187, 3204031479, 3329325298]

/-- SHA-256 initial hash state (FIPS 180-4, in decimal). -/
def sha256H0 : List Nat :=
  [1779033703, 3144134277, 1013904242, 2773480762,
   1359893119, 2600822924, 528734635, 1541459225]

/-- Split a 64-byte block into sixteen big-endian 32-bit words. -/
def blockWords (b : List Nat) : List Nat :=
  (List.range 16).map fun i =>
    b.getD (4 * i) 0 * 16777216 + b.getD (4 * i + 1) 0 * 65536 +
    b.getD (4 * i + 2) 0 * 256 + b.getD (4 * i + 3) 0

/-- Expand the 16 block words to the 64-entry message schedule. -/
def schedule (b : List Nat) : List Nat :=
  (List.range 48).foldl
    (fun w t =>
      w ++ [add32 (add32 (ssig1 (w.getD (t + 14) 0)) (w.getD (t + 9) 0))
                  (add32 (ssig0 (w.getD (t + 1) 0)) (w.getD t 0))])
    (blockWords b)

/-- One SHA-256 compression round. -/
def round256 (w : List Nat) (st : List Nat) (t : Nat) : List Nat :=
  let a := st.getD 0 0
  let b := st.getD 1 0
  let c := st.getD 2 0
  let d := st.getD 3 0
  let e := st.getD 4 0
  let f := st.getD 5 0
  let g := st.getD 6 0
  let h := st.getD 7 0
  let t1 := add32 (add32 (add32 h (bsig1 e)) (add32 (ch32 e f g) (sha256K.getD t 0)))
                  (w.getD t 0)
  let t2 := add32 (bsig0 a) (maj32 a b c)
  [add32 t1 t2, a, b, c, add32 d t1, e, f, g]

/-- SHA-256 compression of one 64-byte block into the running hash state. -/
def compress (h : List Nat) (blk : List Nat) : List Nat :=
  let w := schedule blk
  let fin := (List.range 64).foldl (round256 w) h
  List.zipWith add32 h fin

/-- Big-endian 8-byte encoding of the message bit length. -/
def lenBytes (bits : Nat) : List Nat :=
  [bits >>> 56 % 256, bits >>> 48 % 256, bits >>> 40 % 256, bits >>> 32 % 256,
   bits >>> 24 % 256, bits >>> 16 % 256, bits >>> 8 % 256, bits % 256]

/-- SHA-256 message padding: `0x80`, zeros to 56 mod 64, 8-byte bit length. -/
def pad256 (msg : List Nat) : List Nat :=
  let L := msg.length
  msg ++ [128] ++ List.replicate ((64 + 56 - (L + 1) % 64) % 64) 0 ++ lenBytes (8 * L)

/-- Fold the padded message through the compression function 64 bytes at a
time (the buffer accumulates bytes; a full buffer is compressed). -/
def sha256Words (msg : List Nat) : List Nat :=
  ((pad256 msg).foldl
    (fun st b =>
      let buf := st.1 ++ [b]
      if buf.length == 64 then ([], compress st.2 buf) else (buf, st.2))
    (([] : List Nat), sha256H0)).2

/-- Lowercase hex digit, as a code point. -/
def hexb (d : Nat) : Nat := if d < 10 then 48 + d else 87 + d

/-- Eight lowercase hex digits of one 32-bit word, as code points. -/
def hexWord (w : Nat) : List Nat :=
  (List.range 8).map fun i => hexb (w >>> ((7 - i) * 4) % 16)

/-- Turn a list of code points (all ASCII here) into a `String`. -/
def bytesToString (l : List Nat) : String :=
  String.mk (l.map fun b => Char.ofNat b)

/-- `hashlib.sha256(msg).hexdigest()`: the lowercase hex digest string. -/
def sha256Hex (msg : List Nat) : String :=
  bytesToString ((sha256Words msg).flatMap hexWord)

/-! ### `json.dumps` with its default options, at the byte level

`json.dumps` is called with `ensure_ascii=True` (the default), so its output
is pure ASCII: every byte equals the corresponding code point.  Strings are
emitted with the standard JSON escapes; non-ASCII code points become
`\uXXXX` (a surrogate pair beyond the BMP); separators are `", "` / `": "`.
-/

/-- `\uXXXX` escape of a 16-bit value, as code points. -/
def uEsc (n : Nat) : List Nat :=
  [92, 117, hexb (n / 4096 % 16), hexb (n / 256 % 16), hexb (n / 16 % 16), hexb (n % 16)]

/-- JSON escape of one code point inside a string literal. -/
def escapeByte (c : Nat) : List Nat :=
  if c == 34 then [92, 34]
  else if c == 92 then [92, 92]
  else if c == 10 then [92, 110]
  else if c == 13 then [92, 114]
  else if c == 9 then [92, 116]
  else if c == 8 then [92, 98]
  else if c == 12 then [92, 102]
  else if c < 32 || 126 < c then
    if c < 65536 then uEsc c
    else uEsc (55296 + (c - 65536) / 1024) ++ uEsc (56320 + (c - 65536) % 1024)
  else [c]

/-- The code points of a `String` (ASCII bytes coincide with code points). -/
def strToBytes (s : String) : List Nat := s.toList.map Char.toNat

/-- A JSON string literal: quote, escaped code points, quote. -/
def jstrBytes (s : String) : List Nat :=
  [34] ++ (s.toList.flatMap fun ch => escapeByte ch.toNat) ++ [34]

/-- Decimal digits of a `Nat`, fuel-driven so the kernel can evaluate it. -/
def natDigits : Nat → Nat → List Nat
  | 0, _ => []
  | fuel + 1, n => if n < 10 then [48 + n] else natDigits fuel (n / 10) ++ [48 + n % 10]

/-- Decimal representation of a `Nat`, as code points. -/
def natBytes (n : Nat) : List Nat := natDigits (n + 1) n

/-- Decimal representation of an `Int`, as code points. -/
def intBytes (i : Int) : List Nat :=
  if i < 0 then 45 :: natBytes i.natAbs else natBytes i.natAbs

/-- JSON scalar values allowed inside the `metadata` mapping (the claims only
exercise scalar metadata, so nesting is not modelled). -/
inductive Jv where
  | jstr (s : String)
  | jnum (i : Int)
  | jbool (b : Bool)
  | jnull
deriving DecidableEq

/-- Serialization of a metadata value. -/
def jvBytes : Jv → List Nat
  | .jstr s => jstrBytes s
  | .jnum i => intBytes i
  | .jbool true => [116, 114, 117, 101]
  | .jbool false => [102, 97, 108, 115, 101]
  | .jnull => [110, 117, 108, 108]

/-- Join serialized members with the `", "` separator. -/
def joinComma : List (List Nat) → List Nat
  | [] => []
  | [x] => x
  | x :: y :: r => x ++ [44, 32] ++ joinComma (y :: r)

/-- Serialization of a JSON object (insertion-ordered, like a Python dict). -/
def objBytes (m : List (String × Jv)) : List Nat :=
  [123] ++ joinComma (m.map fun p => jstrBytes p.1 ++ [58, 32] ++ jvBytes p.2) ++ [125]

/-! ### Data model (`ImmutableLogger`) -/

/-- One `log()` call: the three arguments plus the environment reads that
`create_entry` performs (`uuid.uuid4()`, `datetime.utcnow()`,
`os.uname().nodename`, `os.getpid()`), supplied as oracle values. -/
structure LogCall where
  level : String
  message : String
  metadata : List (String × Jv)
  id : String
  timestamp : String
  hostname : String
  pid : Nat
deriving DecidableEq

/-- The dict built by `create_entry` (key order as inserted). -/
structure Entry where
  id : String
  timestamp : String
  level : String
  message : String
  metadata : List (String × Jv)
  hostname : String
  pid : Nat
deriving DecidableEq

/-- `create_entry(level, message, metadata)`. -/
def create_entry (c : LogCall) : Entry :=
  { id := c.id, timestamp := c.timestamp, level := c.level, message := c.message,
    metadata := c.metadata, hostname := c.hostname, pid := c.pid }

/-- `json.dumps(entry)`: the canonical serialized entry, as bytes. -/
def dumpsEntry (e : Entry) : List Nat :=
  [123] ++ jstrBytes "id" ++ [58, 32] ++ jstrBytes e.id
  ++ [44, 32] ++ jstrBytes "timestamp" ++ [58, 32] ++ jstrBytes e.timestamp
  ++ [44, 32] ++ jstrBytes "level" ++ [58, 32] ++ jstrBytes e.level
  ++ [44, 32] ++ jstrBytes "message" ++ [58, 32] ++ jstrBytes e.message
  ++ [44, 32] ++ jstrBytes "metadata" ++ [58, 32] ++ objBytes e.metadata
  ++ [44, 32] ++ jstrBytes "hostname" ++ [58, 32] ++ jstrBytes e.hostname
  ++ [44, 32] ++ jstrBytes "pid" ++ [58, 32] ++ natBytes e.pid
  ++ [125]

/-- A blockchain block as built in `log()`. -/
structure Block where
  index : Nat
  timestamp : String
  data : List Nat
  hash : String
  previousHash : String
deriving DecidableEq

/-- An entry of `log-index.json` as built in `update_index`. -/
structure IndexEntry where
  id : String
  timestamp : String
  level : String
  hash : String
  offset : Nat
deriving DecidableEq

/-- The dict returned by a successful `log()` call. -/
structure LogResult where
  success : Bool
  hash : String
  index : Nat
deriving DecidableEq

/-- Constructor options (`__init__`).  `cloud` records whether a backup
provider object was successfully initialized (`self.cloud is not None`). -/
structure Config where
  enable_blockchain : Bool
  rotate_size : Nat
  enable_cloud_backup : Bool
  backup_async : Bool
  backup_batch_size : Nat
  cloud : Bool
deriving DecidableEq

/-- The option defaults from `__init__` (no cloud backup). -/
def defaultConfig : Config :=
  { enable_blockchain := true, rotate_size := 104857600, enable_cloud_backup := false,
    backup_async := true, backup_batch_size := 100, cloud := false }

/-- The logger's mutable state: the in-memory chain (persisted verbatim by
`save_chain`), the append-log bytes, the index and hash files, the rotated
archive contents (pre-compression bytes of each `.gz`), the cloud-uploaded
archives, the replication queue of `(block, key)` tasks, the batches handed
to `executor.submit(upload_batch)` (each upload succeeding, per a backend
that never fails), and the blocks uploaded synchronously. -/
structure LoggerState where
  chain : List Block
  logFile : List Nat
  index : List IndexEntry
  hashes : List String
  archives : List (List Nat)
  cloudArchives : List (List Nat)
  backupQueue : List (Block × String)
  batches : List (List (Block × String))
  syncUploads : List (Block × String)
deriving DecidableEq

/-- The state right after `initialize()` and `load_chain()` on an empty
directory: empty log file, `{"entries": []}`, `{"hashes": []}`, `[]`. -/
def freshState : LoggerState :=
  { chain := [], logFile := [], index := [], hashes := [], archives := [],
    cloudArchives := [], backupQueue := [], batches := [], syncUploads := [] }

/-! ### Operations -/

/-- `self.hash(data)`: the SHA-256 hex digest of the UTF-8 bytes. -/
def hash (data : List Nat) : String := sha256Hex data

/-- `self.chain[-1]['hash'] if self.chain else '0'`. -/
def chainLastHash (chain : List Block) : String :=
  match chain.getLast? with
  | some b => b.hash
  | none => "0"

/-- `is_valid_block(block)`. -/
def is_valid_block (chain : List Block) (block : Block) : Bool :=
  match chain.getLast? with
  | none => true
  | some previous => block.previousHash == previous.hash && block.hash == hash block.data

/-- `append_to_log(data)`: one append of `data` to the log file. -/
def append_to_log (st : LoggerState) (data : List Nat) : LoggerState :=
  { st with logFile := st.logFile ++ data }

/-- `update_index(entry, entry_hash)`: records `offset` as the log file's
size at the time of the call (which in `log()` is after the append). -/
def update_index (st : LoggerState) (entry : Entry) (entry_hash : String) : LoggerState :=
  let ie : IndexEntry :=
    { id := entry.id, timestamp := entry.timestamp, level := entry.level,
      hash := entry_hash, offset := st.logFile.length }
  { st with index := st.index ++ [ie] }

/-- `update_hash_chain(entry_hash)`. -/
def update_hash_chain (st : LoggerState) (entry_hash : String) : LoggerState :=
  { st with hashes := st.hashes ++ [entry_hash] }

/-- The remote key `f'blocks/{block["hash"]}.json'`. -/
def backupKey (block : Block) : String := "blocks/" ++ block.hash ++ ".json"

/-- `_flush_backup_queue()`: copy the queue, clear it, and hand the copy to
the worker pool as one upload batch. -/
def flush_backup_queue (st : LoggerState) : LoggerState :=
  if st.backupQueue.isEmpty then st
  else { st with backupQueue := [], batches := st.batches ++ [st.backupQueue] }

/-- `backup_to_cloud(block)`. -/
def backup_to_cloud (cfg : Config) (st : LoggerState) (block : Block) : LoggerState :=
  if !cfg.cloud then st
  else if cfg.backup_async then
    let st := { st with backupQueue := st.backupQueue ++ [(block, backupKey block)] }
    if cfg.backup_batch_size ≤ st.backupQueue.length then flush_backup_queue st else st
  else
    { st with syncUploads := st.syncUploads ++ [(block, backupKey block)] }

/-- `rotate()`: archive the live log's bytes (then compressed into the one
`.gz` artifact), upload the archive when cloud backup is on, and truncate
the live log to zero bytes.  Chain, index, and hash file are untouched. -/
def rotate (cfg : Config) (st : LoggerState) : LoggerState :=
  let content := st.logFile
  let st := { st with archives := st.archives ++ [content] }
  let st := if cfg.enable_cloud_backup && cfg.cloud
            then { st with cloudArchives := st.cloudArchives ++ [content] } else st
  { st with logFile := [] }

/-- `check_rotation()`: `if self.log_file.stat().st_size >= self.rotate_size`. -/
def check_rotation (cfg : Config) (st : LoggerState) : LoggerState :=
  if cfg.rotate_size ≤ st.logFile.length then rotate cfg st else st

/-- The block `log()` builds from the current state and the call. -/
def mkBlock (st : LoggerState) (c : LogCall) : Block :=
  let entry := create_entry c
  let data := dumpsEntry entry
  { index := st.chain.length, timestamp := entry.timestamp, data := data,
    hash := hash data, previousHash := chainLastHash st.chain }

/-- `log(level, message, metadata)`, with the self-validation predicate a
parameter so the (unreachable) failure branch can be exercised; the raise
leaves the logger object's state untouched. -/
def logWith (valid : List Block → Block → Bool) (cfg : Config) (st : LoggerState)
    (c : LogCall) : LoggerState × Except String LogResult :=
  let entry := create_entry c
  let data := dumpsEntry entry
  let entry_hash := hash data
  let block := mkBlock st c
  if cfg.enable_blockchain && !(valid st.chain block) then
    (st, .error "Invalid block - blockchain verification failed")
  else
    let st := append_to_log st (data ++ [10])
    let st := update_index st entry entry_hash
    let st := update_hash_chain st entry_hash
    let st := { st with chain := st.chain ++ [block] }
    let st := if cfg.enable_cloud_backup then backup_to_cloud cfg st block else st
    let st := check_rotation cfg st
    (st, .ok { success := true, hash := entry_hash, index := block.index })

/-- `log()` as written: the validator is `is_valid_block`. -/
def log (cfg : Config) (st : LoggerState) (c : LogCall) :
    LoggerState × Except String LogResult :=
  logWith is_valid_block cfg st c

/-- The state after one `log()` call. -/
def logStep (cfg : Config) (st : LoggerState) (c : LogCall) : LoggerState :=
  (log cfg st c).1

/-- A sequence of `log()` calls. -/
def runLog (cfg : Config) (st : LoggerState) (calls : List LogCall) : LoggerState :=
  calls.foldl (logStep cfg) st

/-- The `verify()` loop over `range(1, len(chain))`: the first index whose
block fails `hash == Hash(data)` or `previousHash == previous.hash` (the
index printed in the failure message), or `none` when every check passes. -/
def verifyLoop (previous : Block) (rest : List Block) (i : Nat) : Option Nat :=
  match rest with
  | [] => none
  | current :: rest =>
    if current.hash != hash current.data then some i
    else if current.previousHash != previous.hash then some i
    else verifyLoop current rest (i + 1)

/-- The first failing index reported by `verify()`'s walk. -/
def firstBadIndex (chain : List Block) : Option Nat :=
  match chain with
  | [] => none
  | b :: rest => verifyLoop b rest 1

/-- `verify()`: `True` exactly when the walk finds no bad block (the walk is
skipped entirely when `enable_blockchain` is off). -/
def verify (cfg : Config) (st : LoggerState) : Bool :=
  if cfg.enable_blockchain then (firstBadIndex st.chain).isNone else true

/-- Python's `entries[-limit:]`: the whole list when `limit == 0`, otherwise
the last `limit` elements. -/
def pySliceLast (l : List α) (n : Nat) : List α :=
  if n = 0 then l else l.drop (l.length - n)

/-- The three filters of `read()` (string comparison on ISO timestamps). -/
def filterEntries (entries : List IndexEntry) (level : Option String)
    (start_date end_date : Option String) : List IndexEntry :=
  let entries := match level with
    | some lvl => entries.filter fun e => e.level == lvl
    | none => entries
  let entries := match start_date with
    | some sd => entries.filter fun e => sd ≤ e.timestamp
    | none => entries
  match end_date with
  | some ed => entries.filter fun e => e.timestamp ≤ ed
  | none => entries

/-- `read(limit, level, start_date, end_date)`.  Each returned entry is the
dict `json.loads(block.data)`, represented here by its canonical
serialization `block.data` (`json.loads` then `json.dumps` round-trips to
the same bytes, Python dicts preserving insertion order). -/
def read (st : LoggerState) (limit : Nat) (level start_date end_date : Option String) :
    List (List Nat) :=
  let entries := filterEntries st.index level start_date end_date
  let entries := pySliceLast entries limit
  entries.filterMap fun e =>
    (st.chain.find? fun b => b.timestamp == e.timestamp).map fun b => b.data

/-- `str.lower()` on one ASCII code point. -/
def lowerByte (b : Nat) : Nat := if 65 ≤ b && b ≤ 90 then b + 32 else b

/-- Python's `startswith` on byte lists. -/
def pyBegins : List Nat → List Nat → Bool
  | [], _ => true
  | _ :: _, [] => false
  | a :: as, b :: bs => a == b && pyBegins as bs

/-- Python's substring operator `needle in hay` on byte lists. -/
def pyContains (needle : List Nat) : List Nat → Bool
  | [] => needle.isEmpty
  | b :: t => pyBegins needle (b :: t) || pyContains needle t

/-- `search(query, **options)`: `query.lower() in json.dumps(log).lower()`
over the entries selected by `read(limit=10000, **options)`. -/
def search (st : LoggerState) (query : String)
    (level start_date end_date : Option String) : List (List Nat) :=
  let logs := read st 10000 level start_date end_date
  logs.filter fun d => pyContains ((strToBytes query).map lowerByte) (d.map lowerByte)

/-- `shutdown()`: flush the remaining queue and wait for the pool. -/
def shutdown (cfg : Config) (st : LoggerState) : LoggerState :=
  if cfg.enable_cloud_backup && !st.backupQueue.isEmpty then flush_backup_queue st else st

/-- Blocks handed off for upload, all succeeding (a never-failing backend). -/
def totalUploaded (st : LoggerState) : Nat := (st.batches.map List.length).sum

/-- Concatenation of a list of byte strings. -/
def joinAll (l : List (List Nat)) : List Nat := l.foldr (· ++ ·) []

/-- Every byte ever appended to the append log, archives included (rotation
moves the live bytes into an archive before truncating). -/
def appendLogBytes (st : LoggerState) : List Nat :=
  joinAll st.archives ++ st.logFile

/-- The number of entries in the append log: its newline count (each append
writes `data + '\n'` and `json.dumps` output never contains a raw newline). -/
def appendLogEntryCount (st : LoggerState) : Nat :=
  (appendLogBytes st).count 10

/-- Replace `chain[i]['data']` (tampering), leaving every other field. -/
def setData : List Block → Nat → List Nat → List Block
  | [], _, _ => []
  | b :: r, 0, d => { b with data := d } :: r
  | b :: r, n + 1, d => b :: setData r n d

/-- The index entry recorded by `log()` for one call (offset: the log file's
size after this entry's bytes, newline included, were appended). -/
def logIndexEntry (st : LoggerState) (c : LogCall) : IndexEntry :=
  { id := c.id, timestamp := c.timestamp, level := c.level,
    hash := hash (dumpsEntry (create_entry c)),
    offset := st.logFile.length + (dumpsEntry (create_entry c)).length + 1 }

/-- A placeholder block, used only as the default of `List.getD`. -/
def blk0 : Block :=
  { index := 0, timestamp := "", data := [], hash := "", previousHash := "" }

/-- A well-formed chain: `verify()`'s walk finds no bad index. -/
def goodChain (chain : List Block) : Prop := firstBadIndex chain = none

/-- The state `log()` reaches right before `check_rotation` (proof helper:
the else branch of `log()` up to and including the cloud backup step). -/
def preRotate (cfg : Config) (st : LoggerState) (c : LogCall) : LoggerState :=
  let entry := create_entry c
  let data := dumpsEntry entry
  let entry_hash := hash data
  let block := mkBlock st c
  let st := append_to_log st (data ++ [10])
  let st := update_index st entry entry_hash
  let st := update_hash_chain st entry_hash
  let st := { st with chain := st.chain ++ [block] }
  if cfg.enable_cloud_backup then backup_to_cloud cfg st block else st

/-- Enqueue a list of blocks through `backup_to_cloud`, from a fresh state. -/
def enqueueBlocks (cfg : Config) (blocks : List Block) : LoggerState :=
  blocks.foldl (backup_to_cloud cfg) freshState

/-- Modelled on the claim's words for C9: the entries matching the given
filters, all of them, each resolved through the chain exactly as `read()`
resolves them. -/
def readAllMatching (st : LoggerState) (level start_date end_date : Option String) :
    List (List Nat) :=
  (filterEntries st.index level start_date end_date).filterMap fun e =>
    (st.chain.find? fun b => b.timestamp == e.timestamp).map fun b => b.data

/-! ### Concrete inputs used by witnesses and counterexamples -/

/-- A concrete `log()` call (short strings keep digests cheap to evaluate). -/
def sampleCall : LogCall :=
  { level := "INFO", message := "m", metadata := [], id := "a", timestamp := "t1",
    hostname := "h", pid := 1 }

/-- A second concrete call with a distinct id and timestamp. -/
def sampleCall2 : LogCall :=
  { level := "WARN", message := "n", metadata := [], id := "b", timestamp := "t2",
    hostname := "h", pid := 1 }

/-- Default options except `enable_blockchain = False`. -/
def cfgNB : Config := { defaultConfig with enable_blockchain := false }

/-- Default options except a zero rotation threshold. -/
def cfgRotZero : Config := { defaultConfig with rotate_size := 0 }

/-- Cloud backup enabled with `backup_batch_size = 2`. -/
def cfgBatchTwo : Config :=
  { defaultConfig with
      enable_cloud_backup := true
      cloud := true
      backup_batch_size := 2 }

/-- A concrete block (only identity matters for queue mechanics). -/
def sampleBlock (n : Nat) : Block :=
  { index := n, timestamp := "t", data := [], hash := "h", previousHash := "p" }

/-- The C7 example call: `{level: "REVENUE", message: "Sale completed",
metadata: {amount: 1000}}`, with arbitrary oracle fields. -/
def revenueCall (uid uts uhn : String) (upid : Nat) : LogCall :=
  { level := "REVENUE", message := "Sale completed",
    metadata := [("amount", Jv.jnum 1000)], id := uid, timestamp := uts,
    hostname := uhn, pid := upid }

/-- The dict a successful `log()` call returns. -/
def logResult (st : LoggerState) (c : LogCall) : LogResult :=
  { success := true, hash := sha256Hex (dumpsEntry (create_entry c)),
    index := st.chain.length }

/-- One append on a fresh logger, then block 0's data overwritten by `"x"`
(the stored hash left unchanged). -/
def tamperedState : LoggerState :=
  let st := runLog defaultConfig freshState [sampleCall]
  { st with chain := setData st.chain 0 [120] }

/-! ### Serializer facts: `json.dumps` output never contains a raw newline -/

lemma hexb_ne_ten (d : Nat) : hexb d ≠ 10 := by
  unfold hexb; split <;> omega

lemma ten_not_mem_uEsc (n : Nat) : 10 ∉ uEsc n := by
  intro h
  simp only [uEsc, List.mem_cons, List.not_mem_nil, or_false] at h
  rcases h with h | h | h | h | h | h <;>
    first
      | omega
      | exact absurd h.symm (hexb_ne_ten _)

lemma ten_not_mem_escapeByte (c : Nat) : 10 ∉ escapeByte c := by
  intro h
  unfold escapeByte at h
  split_ifs at h with h1 h2 h3 h4 h5 h6 h7 h8 h9
  all_goals
    first
      | (simp only [List.mem_cons, List.not_mem_nil, or_false] at h; omega)
      | exact absurd h (ten_not_mem_uEsc _)
      | (rcases List.mem_append.1 h with h' | h' <;> exact absurd h' (ten_not_mem_uEsc _))
      | (simp only [List.mem_singleton] at h
         simp only [Bool.or_eq_true, decide_eq_true_eq, not_or, not_lt] at h8
         omega)

lemma ten_not_mem_jstrBytes (s : String) : 10 ∉ jstrBytes s := by
  intro h
  unfold jstrBytes at h
  rcases List.mem_append.1 h with h' | h'
  · rcases List.mem_append.1 h' with h'' | h''
    · simp at h''
    · rcases List.mem_flatMap.1 h'' with ⟨ch, _, hm⟩
      exact ten_not_mem_escapeByte _ hm
  · simp at h'

lemma natDigits_mem_ge (fuel n b : Nat) (h : b ∈ natDigits fuel n) : 48 ≤ b := by
  induction fuel generalizing n with
  | zero => simp [natDigits] at h
  | succ f ih =>
    unfold natDigits at h
    split at h
    · simp only [List.mem_singleton] at h; omega
    · rcases List.mem_append.1 h with h' | h'
      · exact ih _ h'
      · simp only [List.mem_singleton] at h'; omega

lemma ten_not_mem_natBytes (n : Nat) : 10 ∉ natBytes n := by
  intro h
  have := natDigits_mem_ge _ _ _ h
  omega

lemma ten_not_mem_intBytes (i : Int) : 10 ∉ intBytes i := by
  intro h
  unfold intBytes at h
  split at h
  · rcases List.mem_cons.1 h with h' | h'
    · omega
    · exact ten_not_mem_natBytes _ h'
  · exact ten_not_mem_natBytes _ h

lemma ten_not_mem_jvBytes (v : Jv) : 10 ∉ jvBytes v := by
  intro h
  cases v with
  | jstr s => exact ten_not_mem_jstrBytes s h
  | jnum i => exact ten_not_mem_intBytes i h
  | jbool b => cases b <;> simp [jvBytes] at h
  | jnull => simp [jvBytes] at h

lemma ten_not_mem_joinComma (l : List (List Nat))
    (hl : ∀ x ∈ l, 10 ∉ x) : 10 ∉ joinComma l := by
  intro h
  induction l with
  | nil => simp [joinComma] at h
  | cons x r ih =>
    cases r with
    | nil => exact hl x (by simp) h
    | cons y r' =>
      unfold joinComma at h
      rcases List.mem_append.1 h with h' | h'
      · rcases List.mem_append.1 h' with h'' | h''
        · exact hl x (by simp) h''
        · simp at h''
      · exact ih (fun z hz => hl z (List.mem_cons_of_mem _ hz)) h'

lemma ten_not_mem_objBytes (m : List (String × Jv)) : 10 ∉ objBytes m := by
  intro h
  unfold objBytes at h
  rcases List.mem_append.1 h with h' | h'
  · rcases List.mem_append.1 h' with h'' | h''
    · simp at h''
    · refine ten_not_mem_joinComma _ ?_ h''
      intro x hx hten
      rcases List.mem_map.1 hx with ⟨p, _, rfl⟩
      rcases List.mem_append.1 hten with h3 | h3
      · rcases List.mem_append.1 h3 with h4 | h4
        · exact ten_not_mem_jstrBytes _ h4
        · simp at h4
      · exact ten_not_mem_jvBytes _ h3
  · simp at h'

lemma ten_not_mem_dumpsEntry (e : Entry) : 10 ∉ dumpsEntry e := by
  intro h
  unfold dumpsEntry at h
  simp only [List.append_assoc, List.mem_append, List.mem_cons,
    List.mem_singleton, List.not_mem_nil, or_false] at h
  rcases h with h | h
  · omega
  repeat'
    first
      | (exact ten_not_mem_jstrBytes _ h)
      | (exact ten_not_mem_objBytes _ h)
      | (exact ten_not_mem_natBytes _ h)
      | (rcases h with h | h)

lemma count_ten_dumpsEntry (e : Entry) : (dumpsEntry e).count 10 = 0 :=
  List.count_eq_zero.2 (ten_not_mem_dumpsEntry e)

/-! ### One `log()` call always succeeds, and what it does -/

lemma is_valid_block_mkBlock (st : LoggerState) (c : LogCall) :
    is_valid_block st.chain (mkBlock st c) = true := by
  unfold is_valid_block mkBlock chainLastHash
  cases h : st.chain.getLast? with
  | none => rfl
  | some previous => simp

lemma log_eq (cfg : Config) (st : LoggerState) (c : LogCall) :
    log cfg st c =
      (check_rotation cfg (preRotate cfg st c),
       .ok { success := true, hash := hash (dumpsEntry (create_entry c)),
             index := st.chain.length }) := by
  unfold log logWith preRotate
  simp only [is_valid_block_mkBlock, Bool.not_true, Bool.and_false, Bool.false_eq_true,
    if_false]
  simp [mkBlock]

lemma preRotate_chain (cfg : Config) (st : LoggerState) (c : LogCall) :
    (preRotate cfg st c).chain = st.chain ++ [mkBlock st c] := by
  simp only [preRotate, backup_to_cloud, flush_backup_queue, append_to_log,
    update_index, update_hash_chain]
  split_ifs <;> rfl

lemma preRotate_logFile (cfg : Config) (st : LoggerState) (c : LogCall) :
    (preRotate cfg st c).logFile = st.logFile ++ dumpsEntry (create_entry c) ++ [10] := by
  simp only [preRotate, backup_to_cloud, flush_backup_queue, append_to_log,
    update_index, update_hash_chain]
  split_ifs <;> simp

lemma preRotate_index (cfg : Config) (st : LoggerState) (c : LogCall) :
    (preRotate cfg st c).index = st.index ++ [logIndexEntry st c] := by
  simp only [preRotate, backup_to_cloud, flush_backup_queue, append_to_log,
    update_index, update_hash_chain, logIndexEntry]
  split_ifs <;> simp [create_entry] <;> omega

lemma preRotate_hashes (cfg : Config) (st : LoggerState) (c : LogCall) :
    (preRotate cfg st c).hashes = st.hashes ++ [hash (dumpsEntry (create_entry c))] := by
  simp only [preRotate, backup_to_cloud, flush_backup_queue, append_to_log,
    update_index, update_hash_chain]
  split_ifs <;> rfl

lemma preRotate_archives (cfg : Config) (st : LoggerState) (c : LogCall) :
    (preRotate cfg st c).archives = st.archives := by
  simp only [preRotate, backup_to_cloud, flush_backup_queue, append_to_log,
    update_index, update_hash_chain]
  split_ifs <;> rfl

lemma check_rotation_chain (cfg : Config) (st : LoggerState) :
    (check_rotation cfg st).chain = st.chain := by
  unfold check_rotation rotate
  split_ifs <;> rfl

lemma check_rotation_index (cfg : Config) (st : LoggerState) :
    (check_rotation cfg st).index = st.index := by
  unfold check_rotation rotate
  split_ifs <;> rfl

lemma check_rotation_hashes (cfg : Config) (st : LoggerState) :
    (check_rotation cfg st).hashes = st.hashes := by
  unfold check_rotation rotate
  split_ifs <;> rfl

lemma joinAll_concat (A : List (List Nat)) (x : List Nat) :
    joinAll (A ++ [x]) = joinAll A ++ x := by
  induction A with
  | nil => simp [joinAll]
  | cons a as ih =>
    simp only [joinAll, List.foldr_cons, List.cons_append] at ih ⊢
    rw [ih, List.append_assoc]

lemma appendLogBytes_check_rotation (cfg : Config) (st : LoggerState) :
    appendLogBytes (check_rotation cfg st) = appendLogBytes st := by
  unfold check_rotation rotate appendLogBytes
  split_ifs <;> simp [joinAll_concat]

lemma logStep_chain (cfg : Config) (st : LoggerState) (c : LogCall) :
    (logStep cfg st c).chain = st.chain ++ [mkBlock st c] := by
  unfold logStep
  rw [log_eq, check_rotation_chain, preRotate_chain]

lemma logStep_index (cfg : Config) (st : LoggerState) (c : LogCall) :
    (logStep cfg st c).index = st.index ++ [logIndexEntry st c] := by
  unfold logStep
  rw [log_eq, check_rotation_index, preRotate_index]

lemma logStep_hashes (cfg : Config) (st : LoggerState) (c : LogCall) :
    (logStep cfg st c).hashes = st.hashes ++ [hash (dumpsEntry (create_entry c))] := by
  unfold logStep
  rw [log_eq, check_rotation_hashes, preRotate_hashes]

lemma appendLogBytes_logStep (cfg : Config) (st : LoggerState) (c : LogCall) :
    appendLogBytes (logStep cfg st c) =
      appendLogBytes st ++ (dumpsEntry (create_entry c) ++ [10]) := by
  unfold logStep
  rw [log_eq, appendLogBytes_check_rotation]
  unfold appendLogBytes
  rw [preRotate_archives, preRotate_logFile]
  simp [List.append_assoc]

lemma appendLogEntryCount_logStep (cfg : Config) (st : LoggerState) (c : LogCall) :
    appendLogEntryCount (logStep cfg st c) = appendLogEntryCount st + 1 := by
  unfold appendLogEntryCount
  rw [appendLogBytes_logStep, List.count_append, List.count_append,
    count_ten_dumpsEntry]
  rfl

/-! ### The hash chain stays good under appends -/

lemma chainLastHash_cons_cons (a b : Block) (l : List Block) :
    chainLastHash (a :: b :: l) = chainLastHash (b :: l) := by
  simp [chainLastHash, List.getLast?_cons_cons]

lemma verifyLoop_append : ∀ (l : List Block) (prev b : Block) (i : Nat),
    verifyLoop prev l i = none → b.hash = hash b.data →
    b.previousHash = chainLastHash (prev :: l) →
    verifyLoop prev (l ++ [b]) i = none := by
  intro l
  induction l with
  | nil =>
    intro prev b i _ hh hp
    have hp' : b.previousHash = prev.hash := by
      simpa [chainLastHash] using hp
    simp [verifyLoop, hh, hp']
  | cons x xs ih =>
    intro prev b i h hh hp
    rw [chainLastHash_cons_cons] at hp
    simp only [List.cons_append]
    rw [verifyLoop] at h ⊢
    by_cases h1 : (x.hash != hash x.data) = true
    · rw [if_pos h1] at h; exact absurd h (by simp)
    · rw [if_neg h1] at h ⊢
      by_cases h2 : (x.previousHash != prev.hash) = true
      · rw [if_pos h2] at h; exact absurd h (by simp)
      · rw [if_neg h2] at h ⊢
        exact ih x b (i + 1) h hh hp

lemma goodChain_append (ch : List Block) (b : Block)
    (hh : b.hash = hash b.data) (hp : b.previousHash = chainLastHash ch)
    (hg : goodChain ch) : goodChain (ch ++ [b]) := by
  cases ch with
  | nil => simp [goodChain, firstBadIndex, verifyLoop]
  | cons x xs =>
    unfold goodChain firstBadIndex at hg ⊢
    simp only [List.cons_append]
    exact verifyLoop_append xs x b 1 hg hh hp

lemma mkBlock_hash_ok (st : LoggerState) (c : LogCall) :
    (mkBlock st c).hash = hash (mkBlock st c).data := rfl

lemma mkBlock_prev_ok (st : LoggerState) (c : LogCall) :
    (mkBlock st c).previousHash = chainLastHash st.chain := rfl

/-! ### Runs of `log()` calls -/

lemma runLog_nil (cfg : Config) (st : LoggerState) : runLog cfg st [] = st := rfl

lemma runLog_cons (cfg : Config) (st : LoggerState) (c : LogCall) (cs : List LogCall) :
    runLog cfg st (c :: cs) = runLog cfg (logStep cfg st c) cs := rfl

lemma runLog_inv (cfg : Config) : ∀ (calls : List LogCall) (st : LoggerState),
    (runLog cfg st calls).chain.length = st.chain.length + calls.length ∧
    (runLog cfg st calls).index.length = st.index.length + calls.length ∧
    (runLog cfg st calls).hashes.length = st.hashes.length + calls.length ∧
    appendLogEntryCount (runLog cfg st calls) = appendLogEntryCount st + calls.length ∧
    (goodChain st.chain → goodChain (runLog cfg st calls).chain) := by
  intro calls
  induction calls with
  | nil => intro st; simp [runLog_nil]
  | cons c cs ih =>
    intro st
    obtain ⟨h1, h2, h3, h4, h5⟩ := ih (logStep cfg st c)
    rw [runLog_cons]
    refine ⟨?_, ?_, ?_, ?_, ?_⟩
    · rw [h1, logStep_chain]; simp; omega
    · rw [h2, logStep_index]; simp; omega
    · rw [h3, logStep_hashes]; simp; omega
    · rw [h4, appendLogEntryCount_logStep]; simp only [List.length_cons]; omega
    · intro hg
      apply h5
      rw [logStep_chain]
      exact goodChain_append _ _ (mkBlock_hash_ok st c) (mkBlock_prev_ok st c) hg

/-! ### Tampering with a stored block -/

lemma verifyLoop_setData : ∀ (l : List Block) (prev : Block) (j k : Nat) (d : List Nat),
    verifyLoop prev l j = none → k < l.length →
    hash d ≠ (l.getD k blk0).hash →
    verifyLoop prev (setData l k d) j = some (j + k) := by
  intro l
  induction l with
  | nil => intro prev j k d _ hk _; simp at hk
  | cons b rest ih =>
    intro prev j k d h hk hne
    cases k with
    | zero =>
      have hb : hash d ≠ b.hash := by simpa using hne
      rw [setData, verifyLoop]
      rw [if_pos (show (({ b with data := d } : Block).hash !=
            hash ({ b with data := d } : Block).data) = true by
        simp only [bne_iff_ne, ne_eq]
        exact fun he => hb he.symm)]
      simp
    | succ k' =>
      rw [setData, verifyLoop]
      rw [verifyLoop] at h
      by_cases h1 : (b.hash != hash b.data) = true
      · rw [if_pos h1] at h; exact absurd h (by simp)
      · rw [if_neg h1] at h ⊢
        by_cases h2 : (b.previousHash != prev.hash) = true
        · rw [if_pos h2] at h; exact absurd h (by simp)
        · rw [if_neg h2] at h ⊢
          have hres := ih b (j + 1) k' d h
            (by simp only [List.length_cons] at hk; omega) (by simpa using hne)
          rw [show j + (k' + 1) = j + 1 + k' by omega]
          exact hres

/-! ### The claims -/

/-- Claim C1: after every sequence of N `log()` calls on a freshly
initialized logger, `verify()` returns true, and the chain length, the
number of entries appended to the log file, and the number of index entries
all equal N. -/
theorem claim1_verify_and_counts (cfg : Config) (calls : List LogCall) :
    verify cfg (runLog cfg freshState calls) = true ∧
    (runLog cfg freshState calls).chain.length = calls.length ∧
    appendLogEntryCount (runLog cfg freshState calls) = calls.length ∧
    (runLog cfg freshState calls).index.length = calls.length := by
  obtain ⟨h1, h2, _, h4, h5⟩ := runLog_inv cfg calls freshState
  refine ⟨?_, by simpa [freshState] using h1,
    by simpa [appendLogEntryCount, appendLogBytes, joinAll, freshState] using h4,
    by simpa [freshState] using h2⟩
  unfold verify
  split_ifs
  · have hg := h5 (by rfl)
    unfold goodChain at hg
    rw [hg]; rfl
  · rfl

/-- Claim C2, amended: for every chain built by a sequence of appends on a
fresh logger and every index i with 1 ≤ i < length, replacing block i's data
by bytes whose SHA-256 digest differs from the stored hash (true for any
actual tampering short of a SHA-256 collision) makes `verify()`'s walk fail
with first bad index exactly i.  Index 0 is excluded: the walk starts at
index 1 and never re-hashes block 0's data, so mutating block 0 goes
undetected (see the counterexample). -/
theorem claim2_tamper_detected (cfg : Config) (calls : List LogCall) (i : Nat)
    (d : List Nat) (h1 : 1 ≤ i)
    (h2 : i < (runLog cfg freshState calls).chain.length)
    (h3 : sha256Hex d ≠ ((runLog cfg freshState calls).chain.getD i blk0).hash) :
    firstBadIndex (setData (runLog cfg freshState calls).chain i d) = some i := by
  have hg : goodChain (runLog cfg freshState calls).chain :=
    (runLog_inv cfg calls freshState).2.2.2.2 (by rfl)
  cases hc : (runLog cfg freshState calls).chain with
  | nil => rw [hc] at h2; simp at h2
  | cons b rest =>
    rw [hc] at hg h2 h3
    obtain ⟨i', rfl⟩ : ∃ i', i = i' + 1 := ⟨i - 1, by omega⟩
    rw [setData]
    show verifyLoop b (setData rest i' d) 1 = some (i' + 1)
    have hgl : verifyLoop b rest 1 = none := hg
    have hres := verifyLoop_setData rest b 1 i' d hgl
      (by simp only [List.length_cons] at h2; omega) (by simpa using h3)
    rw [show i' + 1 = 1 + i' from by omega]
    exact hres

/-- Counterexample to C2 as stated ("every single index i"): on the chain
built by one append, mutating block 0's data leaves `verify()` returning
true — the walk starts at index 1 and never re-hashes block 0's data. -/
theorem claim2_counterexample_block0 :
    verify defaultConfig tamperedState = true := by
  decide

set_option maxRecDepth 1000000 in
/-- Witness for the amended C2: two concrete appends, then mutating block 1's
data to the byte string `"x"` is reported with first bad index 1. -/
theorem claim2_tamper_detected_witness :
    firstBadIndex
      (setData (runLog cfgNB freshState [sampleCall, sampleCall2]).chain 1 [120])
      = some 1 :=
  claim2_tamper_detected cfgNB [sampleCall, sampleCall2] 1 [120] (by decide) (by decide)
    (by decide)

/-- Claim C3: every `log()` call appends exactly one block whose index is the
chain length before the call, whose data is the canonical serialization of
the new entry, whose hash is the SHA-256 digest of that data, and whose
previousHash is the prior last block's hash — the genesis sentinel "0" when
the chain was empty; the call returns `{success, hash, index}` accordingly. -/
theorem claim3_log_appends_block (cfg : Config) (st : LoggerState) (c : LogCall) :
    (log cfg st c).2 = .ok (logResult st c) ∧
    (log cfg st c).1.chain = st.chain ++ [mkBlock st c] ∧
    (mkBlock st c).index = st.chain.length ∧
    (mkBlock st c).data = dumpsEntry (create_entry c) ∧
    (mkBlock st c).hash = sha256Hex (dumpsEntry (create_entry c)) ∧
    (mkBlock st c).previousHash = chainLastHash st.chain ∧
    (st.chain = [] → (mkBlock st c).previousHash = "0") := by
  refine ⟨?_, logStep_chain cfg st c, rfl, rfl, rfl, rfl, ?_⟩
  · rw [log_eq]
    rfl
  · intro h
    rw [mkBlock_prev_ok, h]
    rfl

/-- Claim C4: the newly formed block always passes self-validation, so the
failure branch of `log()` is unreachable under sequential use; and whenever
that branch is taken (for an arbitrary validator), it returns before the
append-log write, the index update, and the chain append, leaving the state
untouched. -/
theorem claim4_error_branch_unreachable :
    (∀ (cfg : Config) (st : LoggerState) (c : LogCall),
        is_valid_block st.chain (mkBlock st c) = true ∧
        (log cfg st c).2 = .ok (logResult st c)) ∧
    (∀ (valid : List Block → Block → Bool) (cfg : Config) (st : LoggerState)
        (c : LogCall) (r : String), (logWith valid cfg st c).2 = .error r →
        (logWith valid cfg st c).1 = st) := by
  constructor
  · intro cfg st c
    exact ⟨is_valid_block_mkBlock st c, by rw [log_eq]; rfl⟩
  · intro valid cfg st c r h
    simp only [logWith] at h ⊢
    split_ifs at h ⊢
    · rfl

/-- Witness for C4: with a validator that rejects everything, the failure
branch is taken and the state comes back unchanged. -/
theorem claim4_error_branch_unreachable_witness :
    (logWith (fun _ _ => false) defaultConfig freshState sampleCall).1 = freshState :=
  claim4_error_branch_unreachable.2 (fun _ _ => false) defaultConfig freshState
    sampleCall "Invalid block - blockchain verification failed" (by rfl)

/-- Claim C10: the offset recorded in the new index entry equals the size of
the append-log file after the entry's bytes (trailing newline included) were
written — the end offset; on a fresh logger the first recorded offset is the
serialized length plus one, not 0. -/
theorem claim10_offset_is_end_offset (cfg : Config) (st : LoggerState) (c : LogCall) :
    (log cfg st c).1.index = st.index ++ [logIndexEntry st c] ∧
    (logIndexEntry st c).offset
      = (st.logFile ++ dumpsEntry (create_entry c) ++ [10]).length ∧
    (log defaultConfig freshState c).1.index.map IndexEntry.offset
      = [(dumpsEntry (create_entry c)).length + 1] := by
  refine ⟨logStep_index cfg st c, ?_, ?_⟩
  · simp only [logIndexEntry, List.append_assoc, List.length_append,
      List.length_cons, List.length_nil]
    omega
  · rw [show (log defaultConfig freshState c).1.index
        = freshState.index ++ [logIndexEntry freshState c]
      from logStep_index defaultConfig freshState c]
    simp [logIndexEntry, freshState]

/-! ### Rotation (C5) -/

lemma rotate_archives (cfg : Config) (st : LoggerState) :
    (rotate cfg st).archives = st.archives ++ [st.logFile] := by
  simp only [rotate]
  split_ifs <;> rfl

lemma rotate_logFile (cfg : Config) (st : LoggerState) :
    (rotate cfg st).logFile = [] := by
  simp only [rotate]

/-- Claim C5: rotation triggers exactly when the live log's size is at least
the configured threshold, checked synchronously at the end of every
successful append; a triggered rotation archives the live bytes (compressed
into the single `.gz` artifact), resets the live log to zero bytes, and
leaves the chain, the index, and the hash file exactly as the append left
them; below the threshold nothing is archived and the live log keeps the
appended bytes. -/
theorem claim5_rotation (cfg : Config) (st : LoggerState) (c : LogCall) :
    (cfg.rotate_size ≤ (st.logFile ++ dumpsEntry (create_entry c) ++ [10]).length →
      (log cfg st c).1.archives
        = st.archives ++ [st.logFile ++ dumpsEntry (create_entry c) ++ [10]] ∧
      (log cfg st c).1.logFile = [] ∧
      (log cfg st c).1.chain = st.chain ++ [mkBlock st c] ∧
      (log cfg st c).1.index = st.index ++ [logIndexEntry st c] ∧
      (log cfg st c).1.hashes = st.hashes ++ [hash (dumpsEntry (create_entry c))]) ∧
    ((st.logFile ++ dumpsEntry (create_entry c) ++ [10]).length < cfg.rotate_size →
      (log cfg st c).1.archives = st.archives ∧
      (log cfg st c).1.logFile = st.logFile ++ dumpsEntry (create_entry c) ++ [10] ∧
      (log cfg st c).1.chain = st.chain ++ [mkBlock st c] ∧
      (log cfg st c).1.index = st.index ++ [logIndexEntry st c] ∧
      (log cfg st c).1.hashes = st.hashes ++ [hash (dumpsEntry (create_entry c))]) := by
  have hfst : (log cfg st c).1 = check_rotation cfg (preRotate cfg st c) := by
    rw [log_eq]
  constructor
  · intro hge
    have hcond : cfg.rotate_size ≤ (preRotate cfg st c).logFile.length := by
      rw [preRotate_logFile]; exact hge
    have hcr : check_rotation cfg (preRotate cfg st c)
        = rotate cfg (preRotate cfg st c) := by
      unfold check_rotation; rw [if_pos hcond]
    refine ⟨?_, ?_, ?_, ?_, ?_⟩
    · rw [hfst, hcr, rotate_archives, preRotate_archives, preRotate_logFile]
    · rw [hfst, hcr, rotate_logFile]
    · rw [hfst, check_rotation_chain, preRotate_chain]
    · rw [hfst, check_rotation_index, preRotate_index]
    · rw [hfst, check_rotation_hashes, preRotate_hashes]
  · intro hlt
    have hcond : ¬ cfg.rotate_size ≤ (preRotate cfg st c).logFile.length := by
      rw [preRotate_logFile]; omega
    have hcr : check_rotation cfg (preRotate cfg st c) = preRotate cfg st c := by
      unfold check_rotation; rw [if_neg hcond]
    refine ⟨?_, ?_, ?_, ?_, ?_⟩
    · rw [hfst, hcr, preRotate_archives]
    · rw [hfst, hcr, preRotate_logFile]
    · rw [hfst, check_rotation_chain, preRotate_chain]
    · rw [hfst, check_rotation_index, preRotate_index]
    · rw [hfst, check_rotation_hashes, preRotate_hashes]

/-- Witness for C5: with a zero threshold, one append on a fresh logger
rotates — one archive with the appended bytes, the live log reset, and
chain, index, and hash file keeping their appended entries. -/
theorem claim5_rotation_witness :
    (log cfgRotZero freshState sampleCall).1.archives
      = freshState.archives
        ++ [freshState.logFile ++ dumpsEntry (create_entry sampleCall) ++ [10]] ∧
    (log cfgRotZero freshState sampleCall).1.logFile = [] ∧
    (log cfgRotZero freshState sampleCall).1.chain
      = freshState.chain ++ [mkBlock freshState sampleCall] ∧
    (log cfgRotZero freshState sampleCall).1.index
      = freshState.index ++ [logIndexEntry freshState sampleCall] ∧
    (log cfgRotZero freshState sampleCall).1.hashes
      = freshState.hashes ++ [hash (dumpsEntry (create_entry sampleCall))] :=
  (claim5_rotation cfgRotZero freshState sampleCall).1 (by decide)

/-! ### Replication queue (C6) -/

lemma backup_step (cfg : Config) (hc : cfg.cloud = true) (ha : cfg.backup_async = true)
    (hk : 1 ≤ cfg.backup_batch_size) (st : LoggerState) (bk : Block) (n : Nat)
    (h1 : st.backupQueue.length = n % cfg.backup_batch_size)
    (h2 : st.batches.length = n / cfg.backup_batch_size)
    (h3 : ∀ b ∈ st.batches, b.length = cfg.backup_batch_size)
    (h4 : totalUploaded st + st.backupQueue.length = n) :
    (backup_to_cloud cfg st bk).backupQueue.length
        = (n + 1) % cfg.backup_batch_size ∧
    (backup_to_cloud cfg st bk).batches.length
        = (n + 1) / cfg.backup_batch_size ∧
    (∀ b ∈ (backup_to_cloud cfg st bk).batches, b.length = cfg.backup_batch_size) ∧
    totalUploaded (backup_to_cloud cfg st bk)
        + (backup_to_cloud cfg st bk).backupQueue.length = n + 1 := by
  have hKpos : 0 < cfg.backup_batch_size := hk
  have hmod : n % cfg.backup_batch_size < cfg.backup_batch_size := Nat.mod_lt n hKpos
  have hdm := Nat.div_add_mod n cfg.backup_batch_size
  simp only [backup_to_cloud, hc, ha, Bool.not_true, Bool.false_eq_true, if_false,
    if_true]
  by_cases hcase : cfg.backup_batch_size
      ≤ (st.backupQueue ++ [(bk, backupKey bk)]).length
  · rw [if_pos hcase]
    rw [List.length_append, List.length_cons, List.length_nil, h1] at hcase
    have hKeq : cfg.backup_batch_size = n % cfg.backup_batch_size + 1 := by omega
    have hn1 : n + 1 = cfg.backup_batch_size * (n / cfg.backup_batch_size + 1) := by
      rw [Nat.mul_succ]
      omega
    have hqne : (st.backupQueue ++ [(bk, backupKey bk)]).isEmpty = false := by
      simp
    simp only [flush_backup_queue, hqne, Bool.false_eq_true, if_false]
    refine ⟨?_, ?_, ?_, ?_⟩
    · simp [hn1, Nat.mul_mod_right]
    · simp only [List.length_append, List.length_cons, List.length_nil, h2]
      rw [hn1, Nat.mul_div_cancel_left _ hKpos]
    · intro b hb
      rcases List.mem_append.1 hb with hb' | hb'
      · exact h3 b hb'
      · simp only [List.mem_singleton] at hb'
        subst hb'
        simp only [List.length_append, List.length_cons, List.length_nil, h1]
        omega
    · simp only [totalUploaded, List.map_append, List.sum_append, List.map_cons,
        List.map_nil, List.sum_cons, List.sum_nil, List.length_append,
        List.length_cons, List.length_nil, h1]
      simp only [totalUploaded] at h4
      omega
  · rw [if_neg hcase]
    rw [List.length_append, List.length_cons, List.length_nil, h1] at hcase
    have hlt : n % cfg.backup_batch_size + 1 < cfg.backup_batch_size := by omega
    have hn1 : n + 1
        = cfg.backup_batch_size * (n / cfg.backup_batch_size)
          + (n % cfg.backup_batch_size + 1) := by omega
    refine ⟨?_, ?_, h3, ?_⟩
    · simp only [List.length_append, List.length_cons, List.length_nil, h1]
      rw [hn1, Nat.mul_add_mod, Nat.mod_eq_of_lt hlt]
    · simp only [h2]
      rw [hn1, Nat.mul_add_div hKpos, Nat.div_eq_of_lt hlt]
      omega
    · simp only [totalUploaded, List.length_append, List.length_cons, List.length_nil]
      simp only [totalUploaded] at h4
      omega

lemma backup_fold_inv (cfg : Config) (hc : cfg.cloud = true)
    (ha : cfg.backup_async = true) (hk : 1 ≤ cfg.backup_batch_size) :
    ∀ (blocks : List Block) (st : LoggerState) (n : Nat),
      st.backupQueue.length = n % cfg.backup_batch_size →
      st.batches.length = n / cfg.backup_batch_size →
      (∀ b ∈ st.batches, b.length = cfg.backup_batch_size) →
      totalUploaded st + st.backupQueue.length = n →
      (blocks.foldl (backup_to_cloud cfg) st).backupQueue.length
          = (n + blocks.length) % cfg.backup_batch_size ∧
      (blocks.foldl (backup_to_cloud cfg) st).batches.length
          = (n + blocks.length) / cfg.backup_batch_size ∧
      (∀ b ∈ (blocks.foldl (backup_to_cloud cfg) st).batches,
          b.length = cfg.backup_batch_size) ∧
      totalUploaded (blocks.foldl (backup_to_cloud cfg) st)
          + (blocks.foldl (backup_to_cloud cfg) st).backupQueue.length
          = n + blocks.length := by
  intro blocks
  induction blocks with
  | nil =>
    intro st n h1 h2 h3 h4
    simpa using ⟨h1, h2, h3, h4⟩
  | cons bk bks ih =>
    intro st n h1 h2 h3 h4
    obtain ⟨s1, s2, s3, s4⟩ := backup_step cfg hc ha hk st bk n h1 h2 h3 h4
    have hrec := ih (backup_to_cloud cfg st bk) (n + 1) s1 s2 s3 s4
    simpa [List.foldl_cons, List.length_cons, Nat.add_assoc, Nat.add_comm 1 bks.length]
      using hrec

/-- Claim C6: with asynchronous cloud backup and batch size K ≥ 1, enqueuing
B blocks triggers exactly B / K automatic flushes, each handing off a batch
of exactly K tasks and clearing the queue; B % K tasks remain queued, and the
shutdown drain flushes them so that, with a backend whose uploads never fail,
the total number of blocks uploaded equals B. -/
theorem claim6_replication_batches (cfg : Config) (blocks : List Block)
    (hc : cfg.cloud = true) (ha : cfg.backup_async = true)
    (he : cfg.enable_cloud_backup = true) (hk : 1 ≤ cfg.backup_batch_size) :
    (enqueueBlocks cfg blocks).batches.length
        = blocks.length / cfg.backup_batch_size ∧
    (∀ b ∈ (enqueueBlocks cfg blocks).batches, b.length = cfg.backup_batch_size) ∧
    (enqueueBlocks cfg blocks).backupQueue.length
        = blocks.length % cfg.backup_batch_size ∧
    totalUploaded (shutdown cfg (enqueueBlocks cfg blocks)) = blocks.length := by
  obtain ⟨g1, g2, g3, g4⟩ := backup_fold_inv cfg hc ha hk blocks freshState 0
    (by simp [freshState]) (by simp [freshState]) (by simp [freshState])
    (by simp [freshState, totalUploaded])
  rw [show enqueueBlocks cfg blocks = blocks.foldl (backup_to_cloud cfg) freshState
    from rfl]
  simp only [Nat.zero_add] at g1 g2 g3 g4
  refine ⟨g2, g3, g1, ?_⟩
  unfold shutdown
  rw [he]
  cases hq : (blocks.foldl (backup_to_cloud cfg) freshState).backupQueue.isEmpty with
  | true =>
    simp only [hq, Bool.not_true, Bool.and_false, Bool.false_eq_true, if_false]
    rw [List.isEmpty_iff] at hq
    rw [hq, List.length_nil] at g4
    omega
  | false =>
    simp only [hq, Bool.not_false, Bool.and_true, if_true]
    simp only [flush_backup_queue, hq, Bool.false_eq_true, if_false]
    simp only [totalUploaded, List.map_append, List.sum_append, List.map_cons,
      List.map_nil, List.sum_cons, List.sum_nil]
    simp only [totalUploaded] at g4
    omega

/-- Witness for C6: batch size 2 and three enqueued blocks — one automatic
flush of exactly two tasks, one task left queued, and after the shutdown
drain all three blocks are uploaded. -/
theorem claim6_replication_batches_witness :
    (enqueueBlocks cfgBatchTwo [sampleBlock 0, sampleBlock 1, sampleBlock 2]).batches.length
        = [sampleBlock 0, sampleBlock 1, sampleBlock 2].length
          / cfgBatchTwo.backup_batch_size ∧
    (enqueueBlocks cfgBatchTwo [sampleBlock 0, sampleBlock 1, sampleBlock 2]).backupQueue.length
        = [sampleBlock 0, sampleBlock 1, sampleBlock 2].length
          % cfgBatchTwo.backup_batch_size ∧
    totalUploaded (shutdown cfgBatchTwo
        (enqueueBlocks cfgBatchTwo [sampleBlock 0, sampleBlock 1, sampleBlock 2]))
        = [sampleBlock 0, sampleBlock 1, sampleBlock 2].length :=
  ⟨(claim6_replication_batches cfgBatchTwo [sampleBlock 0, sampleBlock 1, sampleBlock 2]
      (by decide) (by decide) (by decide) (by decide)).1,
   (claim6_replication_batches cfgBatchTwo [sampleBlock 0, sampleBlock 1, sampleBlock 2]
      (by decide) (by decide) (by decide) (by decide)).2.2.1,
   (claim6_replication_batches cfgBatchTwo [sampleBlock 0, sampleBlock 1, sampleBlock 2]
      (by decide) (by decide) (by decide) (by decide)).2.2.2⟩

/-! ### Substring search (C7) and limit-zero reads (C9) -/

lemma pyBegins_append (n t : List Nat) : pyBegins n (n ++ t) = true := by
  induction n with
  | nil => rfl
  | cons a as ih => simp [pyBegins, ih]

lemma pyContains_of_begins (n h : List Nat) (hb : pyBegins n h = true) :
    pyContains n h = true := by
  cases h with
  | nil =>
    cases n with
    | nil => rfl
    | cons a as => simp [pyBegins] at hb
  | cons b t => simp [pyContains, hb]

lemma pyContains_append_left (n a h : List Nat) (hh : pyContains n h = true) :
    pyContains n (a ++ h) = true := by
  induction a with
  | nil => simpa using hh
  | cons x xs ih => simp [pyContains, ih]

/-- Claim C7: on a fresh logger, after appending the single entry
`{level: "REVENUE", message: "Sale completed", metadata: {amount: 1000}}`,
`search("revenue")` returns exactly that entry (a case-insensitive substring
match over the serialized entries selected by `read`), and `read(limit=1)`
returns at most one entry, namely the most recent one. -/
theorem claim7_search_read (uid uts uhn : String) (upid : Nat) :
    search (logStep defaultConfig freshState (revenueCall uid uts uhn upid))
        "revenue" none none none
      = [dumpsEntry (create_entry (revenueCall uid uts uhn upid))] ∧
    read (logStep defaultConfig freshState (revenueCall uid uts uhn upid))
        1 none none none
      = [dumpsEntry (create_entry (revenueCall uid uts uhn upid))] := by
  have hread : ∀ lim : Nat, lim ≠ 0 →
      read (logStep defaultConfig freshState (revenueCall uid uts uhn upid)) lim
        none none none
        = [dumpsEntry (create_entry (revenueCall uid uts uhn upid))] := by
    intro lim hlim
    have h10 : (1 : Nat) - lim = 0 := by omega
    simp [read, filterEntries, pySliceLast, logStep_index, logStep_chain, freshState,
      logIndexEntry, mkBlock, create_entry, revenueCall, hlim, h10]
  have hcont : pyContains ((strToBytes "revenue").map lowerByte)
      ((dumpsEntry (create_entry (revenueCall uid uts uhn upid))).map lowerByte)
      = true := by
    have hlvl : (jstrBytes "REVENUE").map lowerByte
        = [34] ++ ((strToBytes "revenue").map lowerByte ++ [34]) := by decide
    simp only [dumpsEntry, create_entry, revenueCall, List.map_append,
      List.append_assoc, hlvl]
    repeat'
      first
        | exact pyContains_of_begins _ _ (pyBegins_append _ _)
        | apply pyContains_append_left
  refine ⟨?_, hread 1 (by decide)⟩
  simp only [search]
  rw [hread 10000 (by decide)]
  simp [hcont]

set_option maxRecDepth 1000000 in
/-- Claim C9: `read` with `limit = 0` returns all entries matching the given
filters, not an empty sequence — the most-recent-limit selection is the
Python slice `entries[-limit:]`, which for limit 0 is the whole list;
demonstrated nonvacuously on a concrete two-entry logger. -/
theorem claim9_read_limit_zero (st : LoggerState)
    (level start_date end_date : Option String) :
    read st 0 level start_date end_date
      = readAllMatching st level start_date end_date ∧
    read (runLog defaultConfig freshState [sampleCall, sampleCall2]) 0 none none none
      = [dumpsEntry (create_entry sampleCall), dumpsEntry (create_entry sampleCall2)] := by
  constructor
  · simp [read, readAllMatching, pySliceLast]
  · decide

end ImmutableLogger
